import Mathlib

/-!
Verification of the momentum-SGD update core
(`caffe2/sgd/momentum_sgd_op.h`).

The C++ kernel works on raw float pointers; buffers may alias.  We embed it
over a flat address space `Nat → ℚ` (float arithmetic modelled exactly over
the rationals), so pointer offsets and aliasing are expressed directly.
The operator wrappers return `Option Mem`: `none` models a failed
`CAFFE_ENFORCE` (the call fails and nothing is written).
-/

namespace Caffe2

/-- Flat float memory: all buffers of one call live in a single address
space, so pointer aliasing between them can be expressed. -/
def Mem : Type := Nat → ℚ

/-- Store value `v` at address `a`. -/
def wr (mem : Mem) (a : Nat) (v : ℚ) : Mem := fun x => if x = a then v else mem x

lemma wr_same (mem : Mem) (a : Nat) (v : ℚ) : wr mem a v a = v := by
  simp [wr]

lemma wr_ne (mem : Mem) {x a : Nat} (v : ℚ) (h : x ≠ a) : wr mem a v x = mem x := by
  simp [wr, h]

/-- One iteration `i` of the loop body of `momentum_sgd_update`
(momentum_sgd_op.h, lines 20-35).  `gp`, `mp`, `ngp`, `nmp` are the base
addresses of the `g`, `m`, `ng`, `nm` pointers; `pp` is the optional
`param` pointer.  Writes happen in source order: `nm[i]`, then `ng[i]`,
then (if `param` is non-null) `param[i] -= ng[i]`. -/
def sgdStep (gp mp ngp nmp : Nat) (pp : Option Nat) (LR momentum : ℚ)
    (nesterov : Bool) (i : Nat) (mem : Mem) : Mem :=
  let mem2 : Mem :=
    if !nesterov then
      let adjusted_gradient := LR * mem (gp + i) + momentum * mem (mp + i)
      wr (wr mem (nmp + i) adjusted_gradient) (ngp + i) adjusted_gradient
    else
      let mi := mem (mp + i)
      let mi_new := momentum * mi + LR * mem (gp + i)
      wr (wr mem (nmp + i) mi_new) (ngp + i) ((1 + momentum) * mi_new - momentum * mi)
  match pp with
  | none => mem2
  | some p => wr mem2 (p + i) (mem2 (p + i) - mem2 (ngp + i))

/-- The `for (i = 0; i < N; ++i)` loop of `momentum_sgd_update`:
`sgdLoop … k mem` performs iterations `0, 1, …, k-1` in that order. -/
def sgdLoop (gp mp ngp nmp : Nat) (pp : Option Nat) (LR momentum : ℚ)
    (nesterov : Bool) : Nat → Mem → Mem
  | 0, mem => mem
  | Nat.succ k, mem =>
      sgdStep gp mp ngp nmp pp LR momentum nesterov k
        (sgdLoop gp mp ngp nmp pp LR momentum nesterov k mem)

/-- `momentum_sgd_update` (momentum_sgd_op.h, lines 8-36): reads
`LR = lr[0]` once, before the loop, then runs the per-element loop. -/
def momentum_sgd_update (N : Nat) (gp mp ngp nmp lrp : Nat) (momentum : ℚ)
    (nesterov : Bool) (pp : Option Nat) (mem : Mem) : Mem :=
  sgdLoop gp mp ngp nmp pp (mem lrp) momentum nesterov N mem

/-- The value one loop iteration stores into `nm[i]`, as a function of the
values `gv = g[i]` and `mv = m[i]` it reads (momentum_sgd_op.h, lines
22-28). -/
def nmVal (LR momentum : ℚ) (nesterov : Bool) (gv mv : ℚ) : ℚ :=
  if nesterov then momentum * mv + LR * gv else LR * gv + momentum * mv

/-- The value one loop iteration stores into `ng[i]` (momentum_sgd_op.h,
lines 24 and 29). -/
def ngVal (LR momentum : ℚ) (nesterov : Bool) (gv mv : ℚ) : ℚ :=
  if nesterov then (1 + momentum) * (momentum * mv + LR * gv) - momentum * mv
  else LR * gv + momentum * mv

/-- A step writes only to `nm[i]`, `ng[i]` and (when present) `param[i]`. -/
lemma sgdStep_ne (gp mp ngp nmp : Nat) (pp : Option Nat) (LR momentum : ℚ)
    (nesterov : Bool) (i : Nat) (mem : Mem) (a : Nat)
    (hnm : a ≠ nmp + i) (hng : a ≠ ngp + i)
    (hp : ∀ p, pp = some p → a ≠ p + i) :
    sgdStep gp mp ngp nmp pp LR momentum nesterov i mem a = mem a := by
  cases pp with
  | none => cases nesterov <;> simp [sgdStep, wr, hnm, hng]
  | some p =>
      have hp2 := hp p rfl
      cases nesterov <;> simp [sgdStep, wr, hnm, hng, hp2]

/-- Frame property of the loop: an address that is not one of the write
targets of any iteration keeps its initial value. -/
lemma sgdLoop_frame (gp mp ngp nmp : Nat) (pp : Option Nat) (LR momentum : ℚ)
    (nesterov : Bool) (k : Nat) (mem : Mem) (a : Nat)
    (h : ∀ i, i < k → a ≠ nmp + i ∧ a ≠ ngp + i ∧ ∀ p, pp = some p → a ≠ p + i) :
    sgdLoop gp mp ngp nmp pp LR momentum nesterov k mem a = mem a := by
  induction k with
  | zero => rfl
  | succ k ih =>
      have hk := h k (Nat.lt_succ_self k)
      have hrest : ∀ i, i < k → a ≠ nmp + i ∧ a ≠ ngp + i ∧
          ∀ p, pp = some p → a ≠ p + i :=
        fun i hi => h i (Nat.lt_succ_of_lt hi)
      simp only [sgdLoop]
      rw [sgdStep_ne _ _ _ _ _ _ _ _ _ _ _ hk.1 hk.2.1 hk.2.2, ih hrest]

/-- Master characterization of the per-element loop.  The hypotheses say
that writes of one iteration never land on the `g`/`m` cells a *different*
iteration reads (`h1`), that `ng` and `nm` write targets never collide
(`h2`), and that `param` cells are disjoint from every other buffer (`h3`).
Both a fully disjoint layout and the aliased layout `ng = g`, `nm = m`
satisfy these hypotheses. -/
lemma sgdLoop_spec (gp mp ngp nmp : Nat) (pp : Option Nat) (LR momentum : ℚ)
    (nesterov : Bool) (N : Nat) (mem : Mem)
    (h1 : ∀ i, i < N → ∀ j, j < N → i ≠ j →
      ngp + i ≠ gp + j ∧ ngp + i ≠ mp + j ∧ nmp + i ≠ gp + j ∧ nmp + i ≠ mp + j)
    (h2 : ∀ i, i < N → ∀ j, j < N → ngp + i ≠ nmp + j)
    (h3 : ∀ p, pp = some p → ∀ i, i < N → ∀ j, j < N →
      p + i ≠ gp + j ∧ p + i ≠ mp + j ∧ p + i ≠ ngp + j ∧ p + i ≠ nmp + j) :
    ∀ k, k ≤ N → ∀ i, i < k →
      sgdLoop gp mp ngp nmp pp LR momentum nesterov k mem (nmp + i)
        = nmVal LR momentum nesterov (mem (gp + i)) (mem (mp + i)) ∧
      sgdLoop gp mp ngp nmp pp LR momentum nesterov k mem (ngp + i)
        = ngVal LR momentum nesterov (mem (gp + i)) (mem (mp + i)) ∧
      ∀ p, pp = some p →
        sgdLoop gp mp ngp nmp pp LR momentum nesterov k mem (p + i)
          = mem (p + i) - ngVal LR momentum nesterov (mem (gp + i)) (mem (mp + i)) := by
  intro k
  induction k with
  | zero => intro _ i hi; exact absurd hi (Nat.not_lt_zero i)
  | succ k ih =>
      intro hk i hi
      have hkN : k < N := hk
      have hiN : i < N := Nat.lt_of_lt_of_le hi hk
      rcases Nat.lt_succ_iff_lt_or_eq.mp hi with hik | hik
      · -- i < k : iteration k does not touch the cells of index i
        have ihi := ih (Nat.le_of_lt hkN) i hik
        have hnm1 : nmp + i ≠ nmp + k := by omega
        have hnm2 : nmp + i ≠ ngp + k := (h2 k hkN i hiN).symm
        have hnm3 : ∀ p, pp = some p → nmp + i ≠ p + k := fun p hp =>
          ((h3 p hp k hkN i hiN).2.2.2).symm
        have hng1 : ngp + i ≠ nmp + k := h2 i hiN k hkN
        have hng2 : ngp + i ≠ ngp + k := by omega
        have hng3 : ∀ p, pp = some p → ngp + i ≠ p + k := fun p hp =>
          ((h3 p hp k hkN i hiN).2.2.1).symm
        refine ⟨?_, ?_, ?_⟩
        · simp only [sgdLoop]
          rw [sgdStep_ne _ _ _ _ _ _ _ _ _ _ _ hnm1 hnm2 hnm3]
          exact ihi.1
        · simp only [sgdLoop]
          rw [sgdStep_ne _ _ _ _ _ _ _ _ _ _ _ hng1 hng2 hng3]
          exact ihi.2.1
        · intro p hp
          have hp1 : p + i ≠ nmp + k := (h3 p hp i hiN k hkN).2.2.2
          have hp2 : p + i ≠ ngp + k := (h3 p hp i hiN k hkN).2.2.1
          have hp3 : ∀ q, pp = some q → p + i ≠ q + k := by
            intro q hq
            rw [hp] at hq
            have hpq : p = q := Option.some.inj hq
            subst hpq
            omega
          simp only [sgdLoop]
          rw [sgdStep_ne _ _ _ _ _ _ _ _ _ _ _ hp1 hp2 hp3]
          exact ihi.2.2 p hp
      · -- i = k : compute the step
        subst hik
        have hgread : sgdLoop gp mp ngp nmp pp LR momentum nesterov i mem (gp + i)
            = mem (gp + i) := by
          apply sgdLoop_frame
          intro t ht
          have htN : t < N := Nat.lt_trans ht hkN
          have hne : t ≠ i := Nat.ne_of_lt ht
          exact ⟨((h1 t htN i hiN hne).2.2.1).symm, ((h1 t htN i hiN hne).1).symm,
            fun p hp => ((h3 p hp t htN i hiN).1).symm⟩
        have hmread : sgdLoop gp mp ngp nmp pp LR momentum nesterov i mem (mp + i)
            = mem (mp + i) := by
          apply sgdLoop_frame
          intro t ht
          have htN : t < N := Nat.lt_trans ht hkN
          have hne : t ≠ i := Nat.ne_of_lt ht
          exact ⟨((h1 t htN i hiN hne).2.2.2).symm, ((h1 t htN i hiN hne).2.1).symm,
            fun p hp => ((h3 p hp t htN i hiN).2.1).symm⟩
        have hpread : ∀ p, pp = some p →
            sgdLoop gp mp ngp nmp pp LR momentum nesterov i mem (p + i) = mem (p + i) := by
          intro p hp
          apply sgdLoop_frame
          intro t ht
          have htN : t < N := Nat.lt_trans ht hkN
          refine ⟨(h3 p hp i hiN t htN).2.2.2, (h3 p hp i hiN t htN).2.2.1, ?_⟩
          intro q hq
          rw [hp] at hq
          have hpq : p = q := Option.some.inj hq
          subst hpq
          omega
        have d1 : ngp + i ≠ nmp + i := h2 i hiN i hiN
        have d2 : nmp + i ≠ ngp + i := d1.symm
        cases pp with
        | none =>
            refine ⟨?_, ?_, fun p hp => Option.noConfusion hp⟩ <;>
              cases nesterov <;>
                simp [sgdLoop, sgdStep, wr, d1, d2, hgread, hmread, nmVal, ngVal]
        | some p =>
            have d3p : p + i ≠ ngp + i := (h3 p rfl i hiN i hiN).2.2.1
            have d4p : p + i ≠ nmp + i := (h3 p rfl i hiN i hiN).2.2.2
            have e1 : nmp + i ≠ p + i := d4p.symm
            have e2 : ngp + i ≠ p + i := d3p.symm
            have hpri := hpread p rfl
            refine ⟨?_, ?_, ?_⟩
            · cases nesterov <;>
                simp [sgdLoop, sgdStep, wr, d1, d2, e1, hgread, hmread, nmVal]
            · cases nesterov <;>
                simp [sgdLoop, sgdStep, wr, d1, d2, e2, hgread, hmread, ngVal]
            · intro q hq
              have hpq : q = p := (Option.some.inj hq).symm
              subst hpq
              cases nesterov <;>
                simp [sgdLoop, sgdStep, wr, d1, d2, d3p, d4p, hgread, hmread, hpri, ngVal]

/-- Kernel-level frame property: `momentum_sgd_update` writes only to the
`nm`, `ng` and (when the pointer is non-null) `param` cells at offsets
below `N`. -/
lemma momentum_sgd_update_frame (N gp mp ngp nmp lrp : Nat) (momentum : ℚ)
    (nesterov : Bool) (pp : Option Nat) (mem : Mem) (a : Nat)
    (h : ∀ i, i < N → a ≠ nmp + i ∧ a ≠ ngp + i ∧ ∀ p, pp = some p → a ≠ p + i) :
    momentum_sgd_update N gp mp ngp nmp lrp momentum nesterov pp mem a = mem a :=
  sgdLoop_frame gp mp ngp nmp pp (mem lrp) momentum nesterov N mem a h

/-- `Disj a na b nb`: the address ranges `[a, a+na)` and `[b, b+nb)` are
disjoint. -/
def Disj (a na b nb : Nat) : Prop :=
  ∀ i, i < na → ∀ j, j < nb → a + i ≠ b + j

instance (a na b nb : Nat) : Decidable (Disj a na b nb) := by
  unfold Disj; infer_instance

lemma Disj.symm {a na b nb : Nat} (h : Disj a na b nb) : Disj b nb a na :=
  fun j hj i hi => (h i hi j hj).symm

/-- Sub-ranges of disjoint ranges are disjoint. -/
lemma Disj.mono {a na b nb : Nat} (h : Disj a na b nb) (da ka db kb : Nat)
    (hka : da + ka ≤ na) (hkb : db + kb ≤ nb) : Disj (a + da) ka (b + db) kb := by
  intro i hi j hj
  have hx := h (da + i) (by omega) (db + j) (by omega)
  omega

/-- Characterization of one `momentum_sgd_update` call on a layout whose
buffers are pairwise disjoint: each output cell holds exactly the value
prescribed by the source recurrence, with `LR = lr[0]` and `g[i]`, `m[i]`,
`param[i]` read from the pre-call memory. -/
lemma momentum_sgd_update_disj_spec
    (N gp mp ngp nmp lrp : Nat) (momentum : ℚ) (nesterov : Bool)
    (pp : Option Nat) (mem : Mem)
    (hng_g : Disj ngp N gp N) (hng_m : Disj ngp N mp N)
    (hnm_g : Disj nmp N gp N) (hnm_m : Disj nmp N mp N)
    (hng_nm : Disj ngp N nmp N)
    (hp : ∀ p, pp = some p →
      Disj p N gp N ∧ Disj p N mp N ∧ Disj p N ngp N ∧ Disj p N nmp N) :
    ∀ i, i < N →
      momentum_sgd_update N gp mp ngp nmp lrp momentum nesterov pp mem (nmp + i)
        = nmVal (mem lrp) momentum nesterov (mem (gp + i)) (mem (mp + i)) ∧
      momentum_sgd_update N gp mp ngp nmp lrp momentum nesterov pp mem (ngp + i)
        = ngVal (mem lrp) momentum nesterov (mem (gp + i)) (mem (mp + i)) ∧
      ∀ p, pp = some p →
        momentum_sgd_update N gp mp ngp nmp lrp momentum nesterov pp mem (p + i)
          = mem (p + i) - ngVal (mem lrp) momentum nesterov (mem (gp + i)) (mem (mp + i)) := by
  intro i hi
  exact sgdLoop_spec gp mp ngp nmp pp (mem lrp) momentum nesterov N mem
    (fun i hi j hj _ =>
      ⟨hng_g i hi j hj, hng_m i hi j hj, hnm_g i hi j hj, hnm_m i hi j hj⟩)
    hng_nm
    (fun p hpp i hi j hj =>
      ⟨(hp p hpp).1 i hi j hj, (hp p hpp).2.1 i hi j hj,
       (hp p hpp).2.2.1 i hi j hj, (hp p hpp).2.2.2 i hi j hj⟩)
    N le_rfl i hi

/-- `MomentumSGDOp::RunOnDevice` (momentum_sgd_op.h, lines 47-68).
The two `CAFFE_ENFORCE` shape checks (`lr.size() == 1` and
`grad.size() == momentum.size()`) run before anything is written; a failed
check aborts the call, modelled by `none`.  On success the kernel runs once
over all `N = grad.size()` elements with a null `param` pointer. -/
def MomentumSGDOp_run (gradSize momSize lrSize : Nat) (gp mp lrp ngp nmp : Nat)
    (momentum : ℚ) (nesterov : Bool) (mem : Mem) : Option Mem :=
  if lrSize = 1 ∧ gradSize = momSize then
    some (momentum_sgd_update gradSize gp mp ngp nmp lrp momentum nesterov none mem)
  else none

/-- `MomentumSGDUpdateOp::RunOnDevice` (momentum_sgd_op.h, lines 86-107).
Same shape checks as `MomentumSGDOp_run`; the parameter buffer's size is
not validated.  The kernel receives the *output* parameter pointer
(`Output(OUTPUT_PARAM)`); the input parameter tensor (`pinp`, `paramSize`)
is never read. -/
def MomentumSGDUpdateOp_run (gradSize momSize lrSize paramSize : Nat)
    (gp mp lrp pinp ngp nmp poutp : Nat) (momentum : ℚ) (nesterov : Bool)
    (mem : Mem) : Option Mem :=
  if lrSize = 1 ∧ gradSize = momSize then
    some (momentum_sgd_update gradSize gp mp ngp nmp lrp momentum nesterov
      (some poutp) mem)
  else none

/-- The row loop of `SparseMomentumSGDUpdateOp::DoRunWithType`
(momentum_sgd_op.h, lines 155-171): row `i` with index `idx` calls the
kernel on gradient offset `i * block_size` and momentum/parameter offset
`idx * block_size`, rows processed in list order. -/
def sparseRows (block_size gradInP momInP gradOutP momOutP paramOutP lrp : Nat)
    (momentum : ℚ) (nesterov : Bool) : Nat → List Nat → Mem → Mem
  | _, [], mem => mem
  | i, idx :: rest, mem =>
      sparseRows block_size gradInP momInP gradOutP momOutP paramOutP lrp
        momentum nesterov (i + 1) rest
        (momentum_sgd_update block_size (gradInP + i * block_size)
          (momInP + idx * block_size) (gradOutP + i * block_size)
          (momOutP + idx * block_size) lrp momentum nesterov
          (some (paramOutP + idx * block_size)) mem)

/-- `SparseMomentumSGDUpdateOp::DoRunWithType` (momentum_sgd_op.h, lines
131-173).  Shape checks: `lr.size() == 1`, `param.size() == momentum.size()`
and `indices.size() == grad.dim(0)`, all before any write; then
`block_size = grad.size() / n` and the row loop.  Indices are in-range row
numbers (the source does not validate them; the caller guarantees this).
`paramInP` mirrors the `paramIn` pointer of the source, which is obtained
but never used. -/
def SparseMomentumSGDUpdateOp_run (gradSize gradDim0 momSize lrSize paramSize : Nat)
    (indices : List Nat)
    (gradInP momInP lrp paramInP gradOutP momOutP paramOutP : Nat)
    (momentum : ℚ) (nesterov : Bool) (mem : Mem) : Option Mem :=
  if lrSize = 1 ∧ paramSize = momSize ∧ indices.length = gradDim0 then
    some (sparseRows (gradSize / gradDim0) gradInP momInP gradOutP momOutP
      paramOutP lrp momentum nesterov 0 indices mem)
  else none

/-- Modelled from the spec, for the comparison in the sparse-block-partition
claim: `n` DenseParameterUpdate calls, one per contiguous block of
`block_size` elements, applied to blocks `k, k+1, …, k+r-1` in increasing
order, each call aborting the chain when its shape checks fail. -/
def denseBlocksRun (block_size gradInP momInP lrp paramInP gradOutP momOutP paramOutP : Nat)
    (momentum : ℚ) (nesterov : Bool) : Nat → Nat → Mem → Option Mem
  | _, 0, mem => some mem
  | k, Nat.succ r, mem =>
      match MomentumSGDUpdateOp_run block_size block_size 1 block_size
          (gradInP + k * block_size) (momInP + k * block_size) lrp
          (paramInP + k * block_size) (gradOutP + k * block_size)
          (momOutP + k * block_size) (paramOutP + k * block_size)
          momentum nesterov mem with
      | none => none
      | some mem2 =>
          denseBlocksRun block_size gradInP momInP lrp paramInP gradOutP momOutP
            paramOutP momentum nesterov (k + 1) r mem2

/-- At `momentum = 0` one loop iteration of the Nesterov branch writes the
same values to the same cells as the classic branch. -/
lemma sgdStep_momentum_zero (gp mp ngp nmp : Nat) (pp : Option Nat) (LR : ℚ)
    (i : Nat) (mem : Mem) :
    sgdStep gp mp ngp nmp pp LR 0 true i mem
      = sgdStep gp mp ngp nmp pp LR 0 false i mem := by
  funext a
  cases pp <;> simp [sgdStep, wr]

/-- At `momentum = 0` the whole loop agrees between the two branches. -/
lemma sgdLoop_momentum_zero (gp mp ngp nmp : Nat) (pp : Option Nat) (LR : ℚ) :
    ∀ k (mem : Mem), sgdLoop gp mp ngp nmp pp LR 0 true k mem
      = sgdLoop gp mp ngp nmp pp LR 0 false k mem := by
  intro k
  induction k with
  | zero => intro mem; rfl
  | succ k ih => intro mem; simp only [sgdLoop, ih, sgdStep_momentum_zero]

/-- A small concrete memory used by witnesses: `g` at address 0, `m` at 1,
`lr` at 2, `ng` at 3, `nm` at 4, `param` at 5. -/
def cmem : Mem := fun a =>
  if a = 0 then 2 else if a = 1 then 3 else if a = 2 then 5 else if a = 5 then 7 else 0

/-- Concrete memory for the parameter-buffer counterexample: `g` at 0 is 1,
`m` at 1 is 0, `lr` at 2 is 1, the *input* parameter cell at 3 is 10, and
the distinct *output* parameter cell at 6 starts at 0. -/
def cmem4 : Mem := fun a =>
  if a = 0 then 1 else if a = 2 then 1 else if a = 3 then 10 else 0

/-- C1: with `nesterov = false`, `UpdateKernel` makes every element satisfy
`nm[i] = ng[i] = LR*g[i] + momentum*m[i]`, where `LR` is the single element
of the learning-rate buffer, and when a parameter row is supplied its
resulting value is `param_out[i] = param_in[i] - ng[i]`. -/
theorem C1_classic_update (N gp mp ngp nmp lrp : Nat) (momentum : ℚ)
    (pp : Option Nat) (mem : Mem)
    (hng_g : Disj ngp N gp N) (hng_m : Disj ngp N mp N)
    (hnm_g : Disj nmp N gp N) (hnm_m : Disj nmp N mp N)
    (hng_nm : Disj ngp N nmp N)
    (hp : ∀ p, pp = some p →
      Disj p N gp N ∧ Disj p N mp N ∧ Disj p N ngp N ∧ Disj p N nmp N) :
    ∀ i, i < N →
      momentum_sgd_update N gp mp ngp nmp lrp momentum false pp mem (nmp + i)
        = mem lrp * mem (gp + i) + momentum * mem (mp + i) ∧
      momentum_sgd_update N gp mp ngp nmp lrp momentum false pp mem (ngp + i)
        = mem lrp * mem (gp + i) + momentum * mem (mp + i) ∧
      ∀ p, pp = some p →
        momentum_sgd_update N gp mp ngp nmp lrp momentum false pp mem (p + i)
          = mem (p + i)
            - momentum_sgd_update N gp mp ngp nmp lrp momentum false pp mem (ngp + i) := by
  intro i hi
  have h := momentum_sgd_update_disj_spec N gp mp ngp nmp lrp momentum false pp mem
    hng_g hng_m hnm_g hnm_m hng_nm hp i hi
  refine ⟨?_, ?_, ?_⟩
  · simpa [nmVal] using h.1
  · simpa [ngVal] using h.2.1
  · intro p hpp
    rw [h.2.2 p hpp, h.2.1]

theorem C1_classic_update_witness :
    momentum_sgd_update 1 0 1 3 4 2 (1/2) false (some 5) cmem (4 + 0)
      = cmem 2 * cmem (0 + 0) + (1/2) * cmem (1 + 0) ∧
    momentum_sgd_update 1 0 1 3 4 2 (1/2) false (some 5) cmem (3 + 0)
      = cmem 2 * cmem (0 + 0) + (1/2) * cmem (1 + 0) ∧
    momentum_sgd_update 1 0 1 3 4 2 (1/2) false (some 5) cmem (5 + 0)
      = cmem (5 + 0)
        - momentum_sgd_update 1 0 1 3 4 2 (1/2) false (some 5) cmem (3 + 0) := by
  have h := C1_classic_update 1 0 1 3 4 2 (1/2) (some 5) cmem
    (by decide) (by decide) (by decide) (by decide) (by decide)
    (fun p hpp => by
      obtain rfl : (5 : Nat) = p := Option.some.inj hpp
      exact ⟨by decide, by decide, by decide, by decide⟩)
    0 (by decide)
  exact ⟨h.1, h.2.1, h.2.2 5 rfl⟩

/-- C2: with `nesterov = true`, `UpdateKernel` makes every element satisfy
`nm[i] = momentum*m[i] + LR*g[i]` and
`ng[i] = (1+momentum)*nm[i] - momentum*m[i]`, with `m[i]` the input
momentum value read before any write; a supplied parameter row is
decremented by `ng[i]`. -/
theorem C2_nesterov_update (N gp mp ngp nmp lrp : Nat) (momentum : ℚ)
    (pp : Option Nat) (mem : Mem)
    (hng_g : Disj ngp N gp N) (hng_m : Disj ngp N mp N)
    (hnm_g : Disj nmp N gp N) (hnm_m : Disj nmp N mp N)
    (hng_nm : Disj ngp N nmp N)
    (hp : ∀ p, pp = some p →
      Disj p N gp N ∧ Disj p N mp N ∧ Disj p N ngp N ∧ Disj p N nmp N) :
    ∀ i, i < N →
      momentum_sgd_update N gp mp ngp nmp lrp momentum true pp mem (nmp + i)
        = momentum * mem (mp + i) + mem lrp * mem (gp + i) ∧
      momentum_sgd_update N gp mp ngp nmp lrp momentum true pp mem (ngp + i)
        = (1 + momentum)
            * momentum_sgd_update N gp mp ngp nmp lrp momentum true pp mem (nmp + i)
          - momentum * mem (mp + i) ∧
      ∀ p, pp = some p →
        momentum_sgd_update N gp mp ngp nmp lrp momentum true pp mem (p + i)
          = mem (p + i)
            - momentum_sgd_update N gp mp ngp nmp lrp momentum true pp mem (ngp + i) := by
  intro i hi
  have h := momentum_sgd_update_disj_spec N gp mp ngp nmp lrp momentum true pp mem
    hng_g hng_m hnm_g hnm_m hng_nm hp i hi
  refine ⟨?_, ?_, ?_⟩
  · simpa [nmVal] using h.1
  · rw [h.1, h.2.1]
    simp [nmVal, ngVal]
  · intro p hpp
    rw [h.2.2 p hpp, h.2.1]

theorem C2_nesterov_update_witness :
    momentum_sgd_update 1 0 1 3 4 2 (1/2) true (some 5) cmem (4 + 0)
      = (1/2) * cmem (1 + 0) + cmem 2 * cmem (0 + 0) ∧
    momentum_sgd_update 1 0 1 3 4 2 (1/2) true (some 5) cmem (3 + 0)
      = (1 + (1/2)) * momentum_sgd_update 1 0 1 3 4 2 (1/2) true (some 5) cmem (4 + 0)
        - (1/2) * cmem (1 + 0) ∧
    momentum_sgd_update 1 0 1 3 4 2 (1/2) true (some 5) cmem (5 + 0)
      = cmem (5 + 0)
        - momentum_sgd_update 1 0 1 3 4 2 (1/2) true (some 5) cmem (3 + 0) := by
  have h := C2_nesterov_update 1 0 1 3 4 2 (1/2) (some 5) cmem
    (by decide) (by decide) (by decide) (by decide) (by decide)
    (fun p hpp => by
      obtain rfl : (5 : Nat) = p := Option.some.inj hpp
      exact ⟨by decide, by decide, by decide, by decide⟩)
    0 (by decide)
  exact ⟨h.1, h.2.1, h.2.2 5 rfl⟩

/-- C7: at `momentum = 0` the Nesterov and classic branches of
`UpdateKernel` produce identical results on every input cell, and both
collapse to plain SGD: `ng[i] = nm[i] = LR*g[i]`. -/
theorem C7_momentum_zero_plain_sgd (N gp mp ngp nmp lrp : Nat)
    (pp : Option Nat) (mem : Mem)
    (hng_g : Disj ngp N gp N) (hng_m : Disj ngp N mp N)
    (hnm_g : Disj nmp N gp N) (hnm_m : Disj nmp N mp N)
    (hng_nm : Disj ngp N nmp N)
    (hp : ∀ p, pp = some p →
      Disj p N gp N ∧ Disj p N mp N ∧ Disj p N ngp N ∧ Disj p N nmp N) :
    momentum_sgd_update N gp mp ngp nmp lrp 0 true pp mem
      = momentum_sgd_update N gp mp ngp nmp lrp 0 false pp mem
    ∧ ∀ i, i < N →
        momentum_sgd_update N gp mp ngp nmp lrp 0 true pp mem (ngp + i)
          = mem lrp * mem (gp + i)
        ∧ momentum_sgd_update N gp mp ngp nmp lrp 0 true pp mem (nmp + i)
          = mem lrp * mem (gp + i) := by
  constructor
  · exact sgdLoop_momentum_zero gp mp ngp nmp pp (mem lrp) N mem
  · intro i hi
    have h := momentum_sgd_update_disj_spec N gp mp ngp nmp lrp 0 true pp mem
      hng_g hng_m hnm_g hnm_m hng_nm hp i hi
    constructor
    · rw [h.2.1]; simp [ngVal]
    · rw [h.1]; simp [nmVal]

theorem C7_momentum_zero_plain_sgd_witness :
    momentum_sgd_update 1 0 1 3 4 2 0 true (some 5) cmem
      = momentum_sgd_update 1 0 1 3 4 2 0 false (some 5) cmem
    ∧ momentum_sgd_update 1 0 1 3 4 2 0 true (some 5) cmem (3 + 0)
        = cmem 2 * cmem (0 + 0)
    ∧ momentum_sgd_update 1 0 1 3 4 2 0 true (some 5) cmem (4 + 0)
        = cmem 2 * cmem (0 + 0) := by
  have h := C7_momentum_zero_plain_sgd 1 0 1 3 4 2 (some 5) cmem
    (by decide) (by decide) (by decide) (by decide) (by decide)
    (fun p hpp => by
      obtain rfl : (5 : Nat) = p := Option.some.inj hpp
      exact ⟨by decide, by decide, by decide, by decide⟩)
  exact ⟨h.1, (h.2 0 (by decide)).1, (h.2 0 (by decide)).2⟩

/-- C9: a successful `MomentumSGDOp` (gradient-only) call writes only the
output gradient and output momentum buffers; every other cell — in
particular, any parameter buffer — is unchanged. -/
theorem C9_dense_gradient_no_param_write
    (gradSize momSize lrSize gp mp lrp ngp nmp : Nat)
    (momentum : ℚ) (nesterov : Bool) (mem mem2 : Mem)
    (hrun : MomentumSGDOp_run gradSize momSize lrSize gp mp lrp ngp nmp
      momentum nesterov mem = some mem2)
    (a : Nat) (ha : ∀ i, i < gradSize → a ≠ ngp + i ∧ a ≠ nmp + i) :
    mem2 a = mem a := by
  by_cases hg : lrSize = 1 ∧ gradSize = momSize
  · unfold MomentumSGDOp_run at hrun
    rw [if_pos hg] at hrun
    obtain rfl := Option.some.inj hrun
    exact momentum_sgd_update_frame _ _ _ _ _ _ _ _ _ _ _
      (fun i hi => ⟨(ha i hi).2, (ha i hi).1, fun p hp => Option.noConfusion hp⟩)
  · unfold MomentumSGDOp_run at hrun
    rw [if_neg hg] at hrun
    exact Option.noConfusion hrun

theorem C9_dense_gradient_no_param_write_witness :
    momentum_sgd_update 1 0 1 3 4 2 (1/2) false none cmem 9 = cmem 9 :=
  C9_dense_gradient_no_param_write 1 1 1 0 1 2 3 4 (1/2) false cmem
    (momentum_sgd_update 1 0 1 3 4 2 (1/2) false none cmem) rfl 9 (by decide)

/-- C10: `MomentumSGDUpdateOp` never validates the parameter buffer's
length: whenever the gradient/momentum and learning-rate checks pass, the
call succeeds for *any* `paramSize` (here an arbitrary `paramSize ≠ N`) and
the kernel still decrements all `N` output-parameter cells. -/
theorem C10_param_length_unchecked (gradSize momSize lrSize paramSize : Nat)
    (gp mp lrp pinp ngp nmp poutp : Nat) (momentum : ℚ) (nesterov : Bool)
    (mem : Mem)
    (hlr : lrSize = 1) (hgm : gradSize = momSize) (hps : paramSize ≠ gradSize)
    (hng_g : Disj ngp gradSize gp gradSize) (hng_m : Disj ngp gradSize mp gradSize)
    (hnm_g : Disj nmp gradSize gp gradSize) (hnm_m : Disj nmp gradSize mp gradSize)
    (hng_nm : Disj ngp gradSize nmp gradSize)
    (hp_g : Disj poutp gradSize gp gradSize) (hp_m : Disj poutp gradSize mp gradSize)
    (hp_ng : Disj poutp gradSize ngp gradSize)
    (hp_nm : Disj poutp gradSize nmp gradSize) :
    MomentumSGDUpdateOp_run gradSize momSize lrSize paramSize gp mp lrp pinp
        ngp nmp poutp momentum nesterov mem
      = some (momentum_sgd_update gradSize gp mp ngp nmp lrp momentum nesterov
          (some poutp) mem)
    ∧ ∀ i, i < gradSize →
        momentum_sgd_update gradSize gp mp ngp nmp lrp momentum nesterov
            (some poutp) mem (poutp + i)
          = mem (poutp + i)
            - ngVal (mem lrp) momentum nesterov (mem (gp + i)) (mem (mp + i)) := by
  constructor
  · unfold MomentumSGDUpdateOp_run
    rw [if_pos ⟨hlr, hgm⟩]
  · intro i hi
    exact (momentum_sgd_update_disj_spec gradSize gp mp ngp nmp lrp momentum
      nesterov (some poutp) mem hng_g hng_m hnm_g hnm_m hng_nm
      (fun p hpp => by
        obtain rfl : poutp = p := Option.some.inj hpp
        exact ⟨hp_g, hp_m, hp_ng, hp_nm⟩) i hi).2.2 poutp rfl

theorem C10_param_length_unchecked_witness :
    MomentumSGDUpdateOp_run 1 1 1 2 0 1 2 6 3 4 5 (1/2) false cmem
      = some (momentum_sgd_update 1 0 1 3 4 2 (1/2) false (some 5) cmem)
    ∧ momentum_sgd_update 1 0 1 3 4 2 (1/2) false (some 5) cmem (5 + 0)
        = cmem (5 + 0) - ngVal (cmem 2) (1/2) false (cmem (0 + 0)) (cmem (1 + 0)) := by
  have h := C10_param_length_unchecked 1 1 1 2 0 1 2 6 3 4 5 (1/2) false cmem
    rfl rfl (by decide) (by decide) (by decide) (by decide) (by decide)
    (by decide) (by decide) (by decide) (by decide) (by decide)
  exact ⟨h.1, h.2 0 (by decide)⟩

/-- C6: any of the three operators rejects a call whose stated length
relations fail — `grad.size() ≠ momentum.size()` or `lr.size() ≠ 1` for the
dense variants, `param.size() ≠ momentum.size()` or
`indices.size() ≠ grad.dim(0)` for the sparse variant.  The checks run
before any computation and a failing call returns `none`: no output is
written. -/
theorem C6_shape_mismatch_rejected :
    (∀ (gradSize momSize lrSize gp mp lrp ngp nmp : Nat) (momentum : ℚ)
        (nesterov : Bool) (mem : Mem),
        gradSize ≠ momSize ∨ lrSize ≠ 1 →
        MomentumSGDOp_run gradSize momSize lrSize gp mp lrp ngp nmp
          momentum nesterov mem = none)
    ∧ (∀ (gradSize momSize lrSize paramSize gp mp lrp pinp ngp nmp poutp : Nat)
        (momentum : ℚ) (nesterov : Bool) (mem : Mem),
        gradSize ≠ momSize ∨ lrSize ≠ 1 →
        MomentumSGDUpdateOp_run gradSize momSize lrSize paramSize gp mp lrp
          pinp ngp nmp poutp momentum nesterov mem = none)
    ∧ (∀ (gradSize gradDim0 momSize lrSize paramSize : Nat) (indices : List Nat)
        (gradInP momInP lrp paramInP gradOutP momOutP paramOutP : Nat)
        (momentum : ℚ) (nesterov : Bool) (mem : Mem),
        paramSize ≠ momSize ∨ indices.length ≠ gradDim0 →
        SparseMomentumSGDUpdateOp_run gradSize gradDim0 momSize lrSize paramSize
          indices gradInP momInP lrp paramInP gradOutP momOutP paramOutP
          momentum nesterov mem = none) := by
  refine ⟨?_, ?_, ?_⟩
  · intro gradSize momSize lrSize gp mp lrp ngp nmp momentum nesterov mem h
    unfold MomentumSGDOp_run
    rw [if_neg (by tauto)]
  · intro gradSize momSize lrSize paramSize gp mp lrp pinp ngp nmp poutp
      momentum nesterov mem h
    unfold MomentumSGDUpdateOp_run
    rw [if_neg (by tauto)]
  · intro gradSize gradDim0 momSize lrSize paramSize indices gradInP momInP lrp
      paramInP gradOutP momOutP paramOutP momentum nesterov mem h
    unfold SparseMomentumSGDUpdateOp_run
    rw [if_neg (by tauto)]

theorem C6_shape_mismatch_rejected_witness :
    MomentumSGDOp_run 2 3 1 0 0 0 0 0 0 false (fun _ => 0) = none
    ∧ MomentumSGDUpdateOp_run 2 3 1 1 0 0 0 0 0 0 0 0 false (fun _ => 0) = none
    ∧ SparseMomentumSGDUpdateOp_run 4 2 3 1 5 [0, 1] 0 0 0 0 0 0 0 0 false
        (fun _ => 0) = none :=
  ⟨C6_shape_mismatch_rejected.1 2 3 1 0 0 0 0 0 0 false (fun _ => 0)
      (Or.inl (by decide)),
   C6_shape_mismatch_rejected.2.1 2 3 1 1 0 0 0 0 0 0 0 0 false (fun _ => 0)
      (Or.inl (by decide)),
   C6_shape_mismatch_rejected.2.2 4 2 3 1 5 [0, 1] 0 0 0 0 0 0 0 0 false
      (fun _ => 0) (Or.inl (by decide))⟩

/-- C4 fails on the code: `MomentumSGDUpdateOp` passes the *output*
parameter pointer to the kernel and never reads `Input(PARAM)`, so with a
distinct output parameter buffer the result is the output buffer's prior
content minus the step, not the input parameter minus the step.  Concrete
run: `g = [1]`, `m = [0]`, `lr = [1]`, input param cell (address 3) holds
10, distinct output param cell (address 6) holds 0; the claim predicts
`10 - 1 = 9` but the code produces `0 - 1 = -1`. -/
theorem C4_distinct_param_counterexample :
    ∃ mem2, MomentumSGDUpdateOp_run 1 1 1 1 0 1 2 3 4 5 6 0 false cmem4
        = some mem2
      ∧ mem2 (6 + 0) ≠ cmem4 (3 + 0) - mem2 (4 + 0) := by
  refine ⟨momentum_sgd_update 1 0 1 4 5 2 0 false (some 6) cmem4, rfl, ?_⟩
  have h := momentum_sgd_update_disj_spec 1 0 1 4 5 2 0 false (some 6) cmem4
    (by decide) (by decide) (by decide) (by decide) (by decide)
    (fun p hpp => by
      obtain rfl : (6 : Nat) = p := Option.some.inj hpp
      exact ⟨by decide, by decide, by decide, by decide⟩)
    0 (by decide)
  rw [h.2.2 6 rfl, h.2.1]
  norm_num [cmem4, ngVal]

/-- C4 amended: after a successful `MomentumSGDUpdateOp` call the output
parameter buffer equals *its own* pre-call contents minus the computed step,
element-wise; the input parameter buffer is never read, so output equals
input-minus-step only when the output parameter buffer aliases (or was
pre-initialized with) the input one. -/
theorem C4_param_output_self_decrement (gradSize momSize lrSize paramSize : Nat)
    (gp mp lrp pinp ngp nmp poutp : Nat) (momentum : ℚ) (nesterov : Bool)
    (mem mem2 : Mem)
    (hrun : MomentumSGDUpdateOp_run gradSize momSize lrSize paramSize gp mp lrp
      pinp ngp nmp poutp momentum nesterov mem = some mem2)
    (hng_g : Disj ngp gradSize gp gradSize) (hng_m : Disj ngp gradSize mp gradSize)
    (hnm_g : Disj nmp gradSize gp gradSize) (hnm_m : Disj nmp gradSize mp gradSize)
    (hng_nm : Disj ngp gradSize nmp gradSize)
    (hp_g : Disj poutp gradSize gp gradSize) (hp_m : Disj poutp gradSize mp gradSize)
    (hp_ng : Disj poutp gradSize ngp gradSize)
    (hp_nm : Disj poutp gradSize nmp gradSize) :
    ∀ i, i < gradSize →
      mem2 (poutp + i)
        = mem (poutp + i)
          - ngVal (mem lrp) momentum nesterov (mem (gp + i)) (mem (mp + i)) := by
  by_cases hg : lrSize = 1 ∧ gradSize = momSize
  · unfold MomentumSGDUpdateOp_run at hrun
    rw [if_pos hg] at hrun
    obtain rfl := Option.some.inj hrun
    intro i hi
    exact (momentum_sgd_update_disj_spec gradSize gp mp ngp nmp lrp momentum
      nesterov (some poutp) mem hng_g hng_m hnm_g hnm_m hng_nm
      (fun p hpp => by
        obtain rfl : poutp = p := Option.some.inj hpp
        exact ⟨hp_g, hp_m, hp_ng, hp_nm⟩) i hi).2.2 poutp rfl
  · unfold MomentumSGDUpdateOp_run at hrun
    rw [if_neg hg] at hrun
    exact Option.noConfusion hrun

theorem C4_param_output_self_decrement_witness :
    momentum_sgd_update 1 0 1 3 4 2 (1/2) true (some 5) cmem (5 + 0)
      = cmem (5 + 0) - ngVal (cmem 2) (1/2) true (cmem (0 + 0)) (cmem (1 + 0)) :=
  C4_param_output_self_decrement 1 1 1 1 0 1 2 6 3 4 5 (1/2) true cmem
    (momentum_sgd_update 1 0 1 3 4 2 (1/2) true (some 5) cmem) rfl
    (by decide) (by decide) (by decide) (by decide) (by decide)
    (by decide) (by decide) (by decide) (by decide)
    0 (by decide)

/-- C8: running `UpdateKernel` in place — `ng` aliased onto `g` and `nm`
onto `m` — produces, element for element, the same numeric results as
running it with distinct output buffers, for either branch and with or
without a parameter row. -/
theorem C8_aliasing_invariance (N gp mp ngp nmp lrp : Nat) (momentum : ℚ)
    (nesterov : Bool) (pp : Option Nat) (mem : Mem)
    (hgm : Disj gp N mp N)
    (hng_g : Disj ngp N gp N) (hng_m : Disj ngp N mp N)
    (hnm_g : Disj nmp N gp N) (hnm_m : Disj nmp N mp N)
    (hng_nm : Disj ngp N nmp N)
    (hp : ∀ p, pp = some p →
      Disj p N gp N ∧ Disj p N mp N ∧ Disj p N ngp N ∧ Disj p N nmp N) :
    ∀ i, i < N →
      momentum_sgd_update N gp mp gp mp lrp momentum nesterov pp mem (gp + i)
        = momentum_sgd_update N gp mp ngp nmp lrp momentum nesterov pp mem (ngp + i)
      ∧ momentum_sgd_update N gp mp gp mp lrp momentum nesterov pp mem (mp + i)
        = momentum_sgd_update N gp mp ngp nmp lrp momentum nesterov pp mem (nmp + i)
      ∧ ∀ p, pp = some p →
          momentum_sgd_update N gp mp gp mp lrp momentum nesterov pp mem (p + i)
            = momentum_sgd_update N gp mp ngp nmp lrp momentum nesterov pp mem (p + i) := by
  intro i hi
  have hA := sgdLoop_spec gp mp gp mp pp (mem lrp) momentum nesterov N mem
    (fun i hi j hj hne =>
      ⟨by omega, hgm i hi j hj, (hgm j hj i hi).symm, by omega⟩)
    hgm
    (fun p hpp i hi j hj =>
      ⟨(hp p hpp).1 i hi j hj, (hp p hpp).2.1 i hi j hj,
       (hp p hpp).1 i hi j hj, (hp p hpp).2.1 i hi j hj⟩)
    N le_rfl i hi
  have hD := momentum_sgd_update_disj_spec N gp mp ngp nmp lrp momentum nesterov
    pp mem hng_g hng_m hnm_g hnm_m hng_nm hp i hi
  have hA1 : momentum_sgd_update N gp mp gp mp lrp momentum nesterov pp mem (gp + i)
      = ngVal (mem lrp) momentum nesterov (mem (gp + i)) (mem (mp + i)) := hA.2.1
  have hA2 : momentum_sgd_update N gp mp gp mp lrp momentum nesterov pp mem (mp + i)
      = nmVal (mem lrp) momentum nesterov (mem (gp + i)) (mem (mp + i)) := hA.1
  refine ⟨?_, ?_, ?_⟩
  · rw [hA1, hD.2.1]
  · rw [hA2, hD.1]
  · intro p hpp
    have hA3 : momentum_sgd_update N gp mp gp mp lrp momentum nesterov pp mem (p + i)
        = mem (p + i)
          - ngVal (mem lrp) momentum nesterov (mem (gp + i)) (mem (mp + i)) :=
      hA.2.2 p hpp
    rw [hA3, hD.2.2 p hpp]

theorem C8_aliasing_invariance_witness :
    momentum_sgd_update 1 0 1 0 1 2 (1/2) true (some 5) cmem (0 + 0)
      = momentum_sgd_update 1 0 1 3 4 2 (1/2) true (some 5) cmem (3 + 0)
    ∧ momentum_sgd_update 1 0 1 0 1 2 (1/2) true (some 5) cmem (1 + 0)
      = momentum_sgd_update 1 0 1 3 4 2 (1/2) true (some 5) cmem (4 + 0)
    ∧ momentum_sgd_update 1 0 1 0 1 2 (1/2) true (some 5) cmem (5 + 0)
      = momentum_sgd_update 1 0 1 3 4 2 (1/2) true (some 5) cmem (5 + 0) := by
  have h := C8_aliasing_invariance 1 0 1 3 4 2 (1/2) true (some 5) cmem
    (by decide) (by decide) (by decide) (by decide) (by decide) (by decide)
    (fun p hpp => by
      obtain rfl : (5 : Nat) = p := Option.some.inj hpp
      exact ⟨by decide, by decide, by decide, by decide⟩)
    0 (by decide)
  exact ⟨h.1, h.2.1, h.2.2 5 rfl⟩

/-- Each step of the per-block dense composition succeeds (its shape checks
`1 = 1` and `block_size = block_size` hold trivially) and performs exactly
the kernel call the sparse row loop performs for row `k` with index `k`. -/
lemma denseBlocksRun_eq_sparseRows (block_size gI mI lrp pI gO mO pO : Nat)
    (momentum : ℚ) (nesterov : Bool) :
    ∀ r k mem,
      denseBlocksRun block_size gI mI lrp pI gO mO pO momentum nesterov k r mem
        = some (sparseRows block_size gI mI gO mO pO lrp momentum nesterov k
            (List.range' k r) mem) := by
  intro r
  induction r with
  | zero => intro k mem; rfl
  | succ r ih =>
      intro k mem
      have hrun : MomentumSGDUpdateOp_run block_size block_size 1 block_size
          (gI + k * block_size) (mI + k * block_size) lrp (pI + k * block_size)
          (gO + k * block_size) (mO + k * block_size) (pO + k * block_size)
          momentum nesterov mem
        = some (momentum_sgd_update block_size (gI + k * block_size)
            (mI + k * block_size) (gO + k * block_size) (mO + k * block_size)
            lrp momentum nesterov (some (pO + k * block_size)) mem) := by
        unfold MomentumSGDUpdateOp_run
        rw [if_pos ⟨rfl, rfl⟩]
      simp only [denseBlocksRun, hrun]
      exact ih (k + 1) _

/-- C5: on the duplicate-free index list `[0, 1, …, n-1]`, with `n`
dividing the gradient's total size evenly, `SparseMomentumSGDUpdateOp`
produces exactly the result of `n` successive `MomentumSGDUpdateOp` calls,
one per contiguous block of `block_size = total / n` elements. -/
theorem C5_sparse_range_equals_dense_blocks
    (gradSize n momSize paramSize : Nat) (gI mI lrp pI gO mO pO : Nat)
    (momentum : ℚ) (nesterov : Bool) (mem : Mem)
    (hn : 0 < n) (hdvd : n ∣ gradSize) (hpm : paramSize = momSize) :
    SparseMomentumSGDUpdateOp_run gradSize n momSize 1 paramSize (List.range n)
        gI mI lrp pI gO mO pO momentum nesterov mem
      = denseBlocksRun (gradSize / n) gI mI lrp pI gO mO pO momentum nesterov
          0 n mem := by
  unfold SparseMomentumSGDUpdateOp_run
  rw [if_pos ⟨rfl, hpm, List.length_range n⟩]
  rw [List.range_eq_range']
  exact (denseBlocksRun_eq_sparseRows (gradSize / n) gI mI lrp pI gO mO pO
    momentum nesterov n 0 mem).symm

theorem C5_sparse_range_equals_dense_blocks_witness :
    SparseMomentumSGDUpdateOp_run 4 2 4 1 4 (List.range 2) 0 4 8 9 13 17 21
        (1/2) false cmem
      = denseBlocksRun 2 0 4 8 9 13 17 21 (1/2) false 0 2 cmem :=
  C5_sparse_range_equals_dense_blocks 4 2 4 4 0 4 8 9 13 17 21 (1/2) false cmem
    (by decide) (by decide) rfl

/-- C3: `SparseMomentumSGDUpdateOp` on the duplicate index list `[a, a]`
processes the two gradient rows independently, in list order: the run
equals the second row's kernel call applied to the state left by the first
row's kernel call.  Consequently the final output-momentum block at row `a`
holds only the second row's values — computed from the *input* momentum
block, which the first call never modified (last-write-wins, no
accumulation) — while the output-parameter block accumulates both steps. -/
theorem C3_duplicate_index_last_write_wins (bs S a : Nat)
    (gI mI lrp pI gO mO pO : Nat) (μ : ℚ) (nv : Bool) (mem : Mem)
    (ha : a * bs + bs ≤ S)
    (hgO_gI : Disj gO (2*bs) gI (2*bs)) (hgO_mI : Disj gO (2*bs) mI S)
    (hmO_gI : Disj mO S gI (2*bs)) (hmO_mI : Disj mO S mI S)
    (hgO_mO : Disj gO (2*bs) mO S)
    (hpO_gI : Disj pO S gI (2*bs)) (hpO_mI : Disj pO S mI S)
    (hpO_gO : Disj pO S gO (2*bs)) (hpO_mO : Disj pO S mO S)
    (hlr_gO : ∀ t, t < 2*bs → lrp ≠ gO + t)
    (hlr_mO : ∀ t, t < S → lrp ≠ mO + t)
    (hlr_pO : ∀ t, t < S → lrp ≠ pO + t) :
    SparseMomentumSGDUpdateOp_run (2*bs) 2 S 1 S [a, a] gI mI lrp pI gO mO pO
        μ nv mem
      = some (momentum_sgd_update bs (gI + 1*bs) (mI + a*bs) (gO + 1*bs)
          (mO + a*bs) lrp μ nv (some (pO + a*bs))
          (momentum_sgd_update bs (gI + 0*bs) (mI + a*bs) (gO + 0*bs)
            (mO + a*bs) lrp μ nv (some (pO + a*bs)) mem))
    ∧ ∀ k, k < bs →
        momentum_sgd_update bs (gI + 1*bs) (mI + a*bs) (gO + 1*bs) (mO + a*bs)
            lrp μ nv (some (pO + a*bs))
            (momentum_sgd_update bs (gI + 0*bs) (mI + a*bs) (gO + 0*bs)
              (mO + a*bs) lrp μ nv (some (pO + a*bs)) mem) (mO + a*bs + k)
          = nmVal (mem lrp) μ nv (mem (gI + bs + k)) (mem (mI + a*bs + k))
        ∧ momentum_sgd_update bs (gI + 1*bs) (mI + a*bs) (gO + 1*bs) (mO + a*bs)
            lrp μ nv (some (pO + a*bs))
            (momentum_sgd_update bs (gI + 0*bs) (mI + a*bs) (gO + 0*bs)
              (mO + a*bs) lrp μ nv (some (pO + a*bs)) mem) (pO + a*bs + k)
          = mem (pO + a*bs + k)
            - ngVal (mem lrp) μ nv (mem (gI + k)) (mem (mI + a*bs + k))
            - ngVal (mem lrp) μ nv (mem (gI + bs + k)) (mem (mI + a*bs + k)) := by
  have h2div : 2 * bs / 2 = bs := Nat.mul_div_cancel_left bs (by norm_num)
  constructor
  · unfold SparseMomentumSGDUpdateOp_run
    rw [if_pos ⟨rfl, rfl, rfl⟩, h2div]
    rfl
  · intro k hk
    have c1 := momentum_sgd_update_disj_spec bs (gI + 0*bs) (mI + a*bs)
      (gO + 0*bs) (mO + a*bs) lrp μ nv (some (pO + a*bs)) mem
      (hgO_gI.mono (0*bs) bs (0*bs) bs (by omega) (by omega))
      (hgO_mI.mono (0*bs) bs (a*bs) bs (by omega) (by omega))
      (hmO_gI.mono (a*bs) bs (0*bs) bs (by omega) (by omega))
      (hmO_mI.mono (a*bs) bs (a*bs) bs (by omega) (by omega))
      (hgO_mO.mono (0*bs) bs (a*bs) bs (by omega) (by omega))
      (fun p hpp => by
        obtain rfl : pO + a*bs = p := Option.some.inj hpp
        exact ⟨hpO_gI.mono (a*bs) bs (0*bs) bs (by omega) (by omega),
               hpO_mI.mono (a*bs) bs (a*bs) bs (by omega) (by omega),
               hpO_gO.mono (a*bs) bs (0*bs) bs (by omega) (by omega),
               hpO_mO.mono (a*bs) bs (a*bs) bs (by omega) (by omega)⟩)
      k hk
    have hfr : ∀ x, (∀ t, t < bs →
          x ≠ (mO + a*bs) + t ∧ x ≠ (gO + 0*bs) + t ∧ x ≠ (pO + a*bs) + t) →
        momentum_sgd_update bs (gI + 0*bs) (mI + a*bs) (gO + 0*bs) (mO + a*bs)
          lrp μ nv (some (pO + a*bs)) mem x = mem x := by
      intro x hx
      apply momentum_sgd_update_frame
      intro t ht
      exact ⟨(hx t ht).1, (hx t ht).2.1, fun p hpp => by
        obtain rfl : pO + a*bs = p := Option.some.inj hpp
        exact (hx t ht).2.2⟩
    have hg1 : momentum_sgd_update bs (gI + 0*bs) (mI + a*bs) (gO + 0*bs)
        (mO + a*bs) lrp μ nv (some (pO + a*bs)) mem (gI + 1*bs + k)
        = mem (gI + 1*bs + k) := by
      apply hfr
      intro t ht
      refine ⟨?_, ?_, ?_⟩
      · have hx := hmO_gI (a*bs + t) (by omega) (1*bs + k) (by omega); omega
      · have hx := hgO_gI (0*bs + t) (by omega) (1*bs + k) (by omega); omega
      · have hx := hpO_gI (a*bs + t) (by omega) (1*bs + k) (by omega); omega
    have hm1 : momentum_sgd_update bs (gI + 0*bs) (mI + a*bs) (gO + 0*bs)
        (mO + a*bs) lrp μ nv (some (pO + a*bs)) mem (mI + a*bs + k)
        = mem (mI + a*bs + k) := by
      apply hfr
      intro t ht
      refine ⟨?_, ?_, ?_⟩
      · have hx := hmO_mI (a*bs + t) (by omega) (a*bs + k) (by omega); omega
      · have hx := hgO_mI (0*bs + t) (by omega) (a*bs + k) (by omega); omega
      · have hx := hpO_mI (a*bs + t) (by omega) (a*bs + k) (by omega); omega
    have hlr1 : momentum_sgd_update bs (gI + 0*bs) (mI + a*bs) (gO + 0*bs)
        (mO + a*bs) lrp μ nv (some (pO + a*bs)) mem lrp = mem lrp := by
      apply hfr
      intro t ht
      refine ⟨?_, ?_, ?_⟩
      · have hx := hlr_mO (a*bs + t) (by omega); omega
      · have hx := hlr_gO (0*bs + t) (by omega); omega
      · have hx := hlr_pO (a*bs + t) (by omega); omega
    have c2 := momentum_sgd_update_disj_spec bs (gI + 1*bs) (mI + a*bs)
      (gO + 1*bs) (mO + a*bs) lrp μ nv (some (pO + a*bs))
      (momentum_sgd_update bs (gI + 0*bs) (mI + a*bs) (gO + 0*bs) (mO + a*bs)
        lrp μ nv (some (pO + a*bs)) mem)
      (hgO_gI.mono (1*bs) bs (1*bs) bs (by omega) (by omega))
      (hgO_mI.mono (1*bs) bs (a*bs) bs (by omega) (by omega))
      (hmO_gI.mono (a*bs) bs (1*bs) bs (by omega) (by omega))
      (hmO_mI.mono (a*bs) bs (a*bs) bs (by omega) (by omega))
      (hgO_mO.mono (1*bs) bs (a*bs) bs (by omega) (by omega))
      (fun p hpp => by
        obtain rfl : pO + a*bs = p := Option.some.inj hpp
        exact ⟨hpO_gI.mono (a*bs) bs (1*bs) bs (by omega) (by omega),
               hpO_mI.mono (a*bs) bs (a*bs) bs (by omega) (by omega),
               hpO_gO.mono (a*bs) bs (1*bs) bs (by omega) (by omega),
               hpO_mO.mono (a*bs) bs (a*bs) bs (by omega) (by omega)⟩)
      k hk
    constructor
    · rw [c2.1, hlr1, hg1, hm1]
      simp only [one_mul]
    · rw [c2.2.2 (pO + a*bs) rfl, hlr1, hg1, hm1, c1.2.2 (pO + a*bs) rfl]
      simp only [one_mul, Nat.zero_mul, Nat.add_zero]

theorem C3_duplicate_index_last_write_wins_witness :
    SparseMomentumSGDUpdateOp_run (2*1) 2 2 1 2 [1, 1] 0 2 4 99 5 7 9 (1/2)
        false cmem
      = some (momentum_sgd_update 1 (0 + 1*1) (2 + 1*1) (5 + 1*1) (7 + 1*1) 4
          (1/2) false (some (9 + 1*1))
          (momentum_sgd_update 1 (0 + 0*1) (2 + 1*1) (5 + 0*1) (7 + 1*1) 4
            (1/2) false (some (9 + 1*1)) cmem))
    ∧ momentum_sgd_update 1 (0 + 1*1) (2 + 1*1) (5 + 1*1) (7 + 1*1) 4 (1/2)
        false (some (9 + 1*1))
        (momentum_sgd_update 1 (0 + 0*1) (2 + 1*1) (5 + 0*1) (7 + 1*1) 4 (1/2)
          false (some (9 + 1*1)) cmem) (7 + 1*1 + 0)
      = nmVal (cmem 4) (1/2) false (cmem (0 + 1 + 0)) (cmem (2 + 1*1 + 0))
    ∧ momentum_sgd_update 1 (0 + 1*1) (2 + 1*1) (5 + 1*1) (7 + 1*1) 4 (1/2)
        false (some (9 + 1*1))
        (momentum_sgd_update 1 (0 + 0*1) (2 + 1*1) (5 + 0*1) (7 + 1*1) 4 (1/2)
          false (some (9 + 1*1)) cmem) (9 + 1*1 + 0)
      = cmem (9 + 1*1 + 0)
        - ngVal (cmem 4) (1/2) false (cmem (0 + 0)) (cmem (2 + 1*1 + 0))
        - ngVal (cmem 4) (1/2) false (cmem (0 + 1 + 0)) (cmem (2 + 1*1 + 0)) := by
  have h := C3_duplicate_index_last_write_wins 1 2 1 0 2 4 99 5 7 9 (1/2) false
    cmem (by decide) (by decide) (by decide) (by decide) (by decide) (by decide)
    (by decide) (by decide) (by decide) (by decide) (by decide) (by decide)
    (by decide)
  exact ⟨h.1, (h.2 0 (by decide)).1, (h.2 0 (by decide)).2⟩

end Caffe2
